import Mathlib

/-!
Shallow embedding of the Sokoban rule engine (`src/engine.rs`).

`Cell`, its algebra (`vol`, `overlay`, `seprate`, `shift`) and the mutable
`Scene` (grid + player coordinate + undo history) are translated directly
from the Rust source.  Rust panics (out-of-bounds indexing, `usize`
underflow, illegal layout characters) are modelled by `Option`: `none`
is a panic, `some` a normal return.
-/

namespace Sokoban

/-- The seven grid-cell variants of `enum Cell` in `engine.rs`. -/
inductive Cell where
  | Case
  | Wall
  | Ground
  | Player
  | Target
  | PlayerOnTarget
  | CaseOnTarget
deriving DecidableEq, Repr, Fintype

/-- `type Triple = (Cell, Cell, Cell)`. -/
abbrev Triple := Cell × Cell × Cell

/-- `Cell::vol`: 0 for bare `Ground`/`Target`, 1 for every other variant. -/
def Cell.vol : Cell → Nat
  | .Ground => 0
  | .Target => 0
  | _ => 1

/-- `Cell::overlay`: compose a floor cell with an incoming occupant. -/
def Cell.overlay : Cell → Cell → Cell
  | .Ground, unit =>
    match unit with
    | .Case => .Case
    | .Player => .Player
    | _ => .Ground
  | .Target, unit =>
    match unit with
    | .Case => .CaseOnTarget
    | .Player => .PlayerOnTarget
    | _ => .Target
  | c, _ => c

/-- `Cell::seprate`: split a cell into (floor, occupant). -/
def Cell.seprate : Cell → Cell × Cell
  | .Case => (.Ground, .Case)
  | .CaseOnTarget => (.Target, .Case)
  | .Player => (.Ground, .Player)
  | .PlayerOnTarget => (.Target, .Player)
  | c => (c, .Ground)

/-- `Cell::can_override`. -/
def Cell.can_override : Cell → Bool
  | .Ground => true
  | .Target => true
  | _ => false

/-- `Cell::shift`: the move-resolution algorithm on a triple of cells. -/
def Cell.shift (t : Triple) : Triple × Bool :=
  let l := t.1
  let m := t.2.1
  let r := t.2.2
  let l_origin := l.seprate.1
  let l_move := l.seprate.2
  let m_origin := m.seprate.1
  let m_move := m.seprate.2
  let m_overlay := m_origin.overlay l_move
  let r_overlay := r.overlay m_move
  let valid_vol := l.vol + m.vol + r.vol
  let new_vol := l_origin.vol + m_overlay.vol + r_overlay.vol
  if valid_vol = new_vol then
    ((l_origin, m_overlay, r_overlay), true)
  else
    ((l, m, r), false)

/-- `type Map = Vec<Vec<Cell>>`. -/
abbrev Map := List (List Cell)

/-- `type Coordinate = (usize, usize)`. -/
abbrev Coordinate := Nat × Nat

/-- `struct Scene { player, map, history }`. -/
structure Scene where
  player : Coordinate
  map : Map
  history : List (Coordinate × Coordinate × Coordinate × Triple)
deriving DecidableEq, Repr

/-- Reading `map[r][c]`; `none` models the Rust index panic. -/
def getCell (m : Map) (r c : Nat) : Option Cell :=
  (m[r]?).bind fun row => row[c]?

/-- Writing `map[r][c] = v` (in the engine only ever done in bounds). -/
def setCell (m : Map) (r c : Nat) (v : Cell) : Map :=
  match m[r]? with
  | some row => m.set r (row.set c v)
  | none => m

/-- `Scene::init`. -/
def Scene.init : Scene :=
  { player := (0, 0), map := [], history := [] }

/-- One step of `Scene::load`'s inner loop over the characters of a row,
threading the player coordinate (set when `i`/`I` is met); `none` models
the `panic!` on an illegal character. -/
def loadRow (r : Nat) : Nat → Coordinate → List Char → Option (Coordinate × List Cell)
  | _, p, [] => some (p, [])
  | c, p, ch :: rest =>
    let parsed : Option (Cell × Coordinate) :=
      match ch with
      | ' ' => some (.Ground, p)
      | '#' => some (.Wall, p)
      | 'o' => some (.Case, p)
      | 'O' => some (.CaseOnTarget, p)
      | 'x' => some (.Target, p)
      | 'i' => some (.Player, (r, c))
      | 'I' => some (.PlayerOnTarget, (r, c))
      | _ => none
    match parsed with
    | none => none
    | some (cell, p1) =>
      match loadRow r (c + 1) p1 rest with
      | none => none
      | some (p2, cells) => some (p2, cell :: cells)

/-- `Scene::load`'s outer loop over the rows of the layout. -/
def loadRows : Nat → Coordinate → List (List Char) → Option (Coordinate × Map)
  | _, p, [] => some (p, [])
  | r, p, row :: rest =>
    match loadRow r 0 p row with
    | none => none
    | some (p1, cells) =>
      match loadRows (r + 1) p1 rest with
      | none => none
      | some (p2, rows) => some (p2, cells :: rows)

/-- `Scene::load`: clears the grid and rebuilds it from the layout,
recording the player coordinate; the `history` field is not touched. -/
def Scene.load (s : Scene) (layout : List (List Char)) : Option Scene :=
  match loadRows 0 s.player layout with
  | none => none
  | some (p, m) => some { player := p, map := m, history := s.history }

/-- `Scene::is_pass`: no `Cell::Case` remains on the grid. -/
def Scene.is_pass (s : Scene) : Bool :=
  ((s.map.map fun r => (r.filter fun x => x == Cell.Case).length).foldl
    (fun sum val => sum + val) 0) == 0

/-- `Scene::get_boxes`. -/
def Scene.get_boxes (_ : Scene) : List Coordinate :=
  []

/-- `Scene::move_right`. -/
def Scene.move_right (s : Scene) : Option (Scene × Bool) :=
  let r := s.player.1
  let c := s.player.2
  match getCell s.map r c, getCell s.map r (c + 1), getCell s.map r (c + 2) with
  | some l, some m, some rr =>
    let res := Cell.shift (l, m, rr)
    if res.2 then
      some ({ player := (r, c + 1),
              map := setCell (setCell (setCell s.map r c res.1.1)
                       r (c + 1) res.1.2.1) r (c + 2) res.1.2.2,
              history := ((r, c), (r, c + 1), (r, c + 2), (l, m, rr)) :: s.history },
            true)
    else
      some (s, false)
  | _, _, _ => none

/-- `Scene::move_left`; `none` when `c - 1` or `c - 2` would underflow `usize`. -/
def Scene.move_left (s : Scene) : Option (Scene × Bool) :=
  let r := s.player.1
  let c := s.player.2
  if c < 2 then none else
  match getCell s.map r c, getCell s.map r (c - 1), getCell s.map r (c - 2) with
  | some l, some m, some rr =>
    let res := Cell.shift (l, m, rr)
    if res.2 then
      some ({ player := (r, c - 1),
              map := setCell (setCell (setCell s.map r c res.1.1)
                       r (c - 1) res.1.2.1) r (c - 2) res.1.2.2,
              history := ((r, c), (r, c - 1), (r, c - 2), (l, m, rr)) :: s.history },
            true)
    else
      some (s, false)
  | _, _, _ => none

/-- `Scene::move_upward`; `none` when `r - 1` or `r - 2` would underflow `usize`. -/
def Scene.move_upward (s : Scene) : Option (Scene × Bool) :=
  let r := s.player.1
  let c := s.player.2
  if r < 2 then none else
  match getCell s.map r c, getCell s.map (r - 1) c, getCell s.map (r - 2) c with
  | some l, some m, some rr =>
    let res := Cell.shift (l, m, rr)
    if res.2 then
      some ({ player := (r - 1, c),
              map := setCell (setCell (setCell s.map r c res.1.1)
                       (r - 1) c res.1.2.1) (r - 2) c res.1.2.2,
              history := ((r, c), (r - 1, c), (r - 2, c), (l, m, rr)) :: s.history },
            true)
    else
      some (s, false)
  | _, _, _ => none

/-- `Scene::move_down`. -/
def Scene.move_down (s : Scene) : Option (Scene × Bool) :=
  let r := s.player.1
  let c := s.player.2
  match getCell s.map r c, getCell s.map (r + 1) c, getCell s.map (r + 2) c with
  | some l, some m, some rr =>
    let res := Cell.shift (l, m, rr)
    if res.2 then
      some ({ player := (r + 1, c),
              map := setCell (setCell (setCell s.map r c res.1.1)
                       (r + 1) c res.1.2.1) (r + 2) c res.1.2.2,
              history := ((r, c), (r + 1, c), (r + 2, c), (l, m, rr)) :: s.history },
            true)
    else
      some (s, false)
  | _, _, _ => none

/-- `Scene::undo`: pop the last history record and write its triple back. -/
def Scene.undo (s : Scene) : Scene :=
  match s.history with
  | [] => s
  | (f, p, t, triple) :: rest =>
    { player := (f.1, f.2),
      map := setCell (setCell (setCell s.map f.1 f.2 triple.1)
               p.1 p.2 triple.2.1) t.1 t.2 triple.2.2,
      history := rest }

/-! ### Grid lemmas -/

theorem isSome_getElem_iff {α : Type} (l : List α) (n : Nat) :
    (l[n]?).isSome = true ↔ n < l.length := by
  by_cases h : n < l.length
  · simp [List.getElem?_eq_getElem h, h]
  · rw [List.getElem?_eq_none (Nat.le_of_not_lt h)]
    simp [h]

theorem getCell_setCell (m : Map) (a b : Nat) (v : Cell) (i j : Nat) :
    getCell (setCell m a b v) i j =
      if a = i ∧ b = j ∧ (getCell m i j).isSome then some v else getCell m i j := by
  unfold setCell
  cases h : m[a]? with
  | none =>
    by_cases hai : a = i
    · subst hai
      simp [getCell, h]
    · simp [getCell, hai]
  | some row =>
    have ha : a < m.length := (List.getElem?_eq_some_iff.mp h).1
    by_cases hai : a = i
    · subst hai
      by_cases hbj : b = j
      · subst hbj
        cases hb : row[b]? <;>
          simp [getCell, List.getElem?_set_self ha, h, List.getElem?_set', hb]
      · simp [getCell, List.getElem?_set_self ha, h, List.getElem?_set_ne hbj, hbj]
    · simp [getCell, List.getElem?_set_ne hai, hai]

theorem isSome_getCell_setCell (m : Map) (a b : Nat) (v : Cell) (i j : Nat) :
    (getCell (setCell m a b v) i j).isSome = (getCell m i j).isSome := by
  rw [getCell_setCell]
  by_cases h : a = i ∧ b = j ∧ (getCell m i j).isSome
  · rw [if_pos h]
    simp [h.2.2]
  · rw [if_neg h]

theorem getCell_write3 (m : Map) (a0 b0 a1 b1 a2 b2 : Nat) (x y z : Cell) (i j : Nat) :
    getCell (setCell (setCell (setCell m a0 b0 x) a1 b1 y) a2 b2 z) i j =
      if a2 = i ∧ b2 = j ∧ (getCell m i j).isSome then some z
      else if a1 = i ∧ b1 = j ∧ (getCell m i j).isSome then some y
      else if a0 = i ∧ b0 = j ∧ (getCell m i j).isSome then some x
      else getCell m i j := by
  have e1 := getCell_setCell (setCell (setCell m a0 b0 x) a1 b1 y) a2 b2 z i j
  rw [isSome_getCell_setCell, isSome_getCell_setCell] at e1
  have e2 := getCell_setCell (setCell m a0 b0 x) a1 b1 y i j
  rw [isSome_getCell_setCell] at e2
  have e3 := getCell_setCell m a0 b0 x i j
  rw [e1, e2, e3]

theorem rowlen_setCell (m : Map) (a b : Nat) (v : Cell) (i : Nat) :
    ((setCell m a b v)[i]?).map List.length = (m[i]?).map List.length := by
  unfold setCell
  cases h : m[a]? with
  | none => rfl
  | some row =>
    have ha : a < m.length := (List.getElem?_eq_some_iff.mp h).1
    by_cases hai : a = i
    · subst hai
      rw [List.getElem?_set_self ha, h]
      simp
    · rw [List.getElem?_set_ne hai]

theorem map_ext_of_getCell (m1 m2 : Map)
    (hr : ∀ i : Nat, (m1[i]?).map List.length = (m2[i]?).map List.length)
    (hc : ∀ i j : Nat, getCell m1 i j = getCell m2 i j) : m1 = m2 := by
  apply List.ext_getElem?
  intro i
  cases h1 : m1[i]? with
  | none =>
    cases h2 : m2[i]? with
    | none => rfl
    | some r2 =>
      have := hr i
      rw [h1, h2] at this
      simp at this
  | some r1 =>
    cases h2 : m2[i]? with
    | none =>
      have := hr i
      rw [h1, h2] at this
      simp at this
    | some r2 =>
      have hrow : r1 = r2 := by
        apply List.ext_getElem?
        intro j
        have hcell := hc i j
        simp only [getCell, h1, h2, Option.some_bind] at hcell
        exact hcell
      rw [hrow]

theorem setCell_restore (m : Map) (a0 b0 a1 b1 a2 b2 : Nat) (L M R x y z : Cell)
    (hL : getCell m a0 b0 = some L) (hM : getCell m a1 b1 = some M)
    (hR : getCell m a2 b2 = some R) :
    setCell (setCell (setCell (setCell (setCell (setCell m a0 b0 x) a1 b1 y) a2 b2 z)
      a0 b0 L) a1 b1 M) a2 b2 R = m := by
  apply map_ext_of_getCell
  · intro i
    simp only [rowlen_setCell]
  · intro i j
    have e := getCell_write3 (setCell (setCell (setCell m a0 b0 x) a1 b1 y) a2 b2 z)
      a0 b0 a1 b1 a2 b2 L M R i j
    simp only [isSome_getCell_setCell] at e
    rw [getCell_write3 m a0 b0 a1 b1 a2 b2 x y z i j] at e
    rw [e]
    split_ifs with h1 h2 h3
    · obtain ⟨hi, hj, -⟩ := h1
      subst hi
      subst hj
      exact hR.symm
    · obtain ⟨hi, hj, -⟩ := h2
      subst hi
      subst hj
      exact hM.symm
    · obtain ⟨hi, hj, -⟩ := h3
      subst hi
      subst hj
      exact hL.symm
    · rfl

/-! ### Inversion of the four directional moves -/

theorem move_right_inv (s s' : Scene) (b : Bool)
    (hmv : Scene.move_right s = some (s', b)) :
    ∃ L M R,
      getCell s.map s.player.1 s.player.2 = some L ∧
      getCell s.map s.player.1 (s.player.2 + 1) = some M ∧
      getCell s.map s.player.1 (s.player.2 + 2) = some R ∧
      ((b = false ∧ (Cell.shift (L, M, R)).2 = false ∧ s' = s) ∨
       (b = true ∧ (Cell.shift (L, M, R)).2 = true ∧
        s' = { player := (s.player.1, s.player.2 + 1),
               map := setCell (setCell (setCell s.map s.player.1 s.player.2
                          (Cell.shift (L, M, R)).1.1)
                        s.player.1 (s.player.2 + 1) (Cell.shift (L, M, R)).1.2.1)
                        s.player.1 (s.player.2 + 2) (Cell.shift (L, M, R)).1.2.2,
               history := ((s.player.1, s.player.2), (s.player.1, s.player.2 + 1),
                           (s.player.1, s.player.2 + 2), (L, M, R)) :: s.history })) := by
  simp only [Scene.move_right] at hmv
  split at hmv
  case h_2 => exact Option.noConfusion hmv
  case h_1 =>
    rename_i L M R hL hM hR
    split at hmv
    · rename_i hsh
      simp only [Option.some.injEq, Prod.mk.injEq] at hmv
      exact ⟨L, M, R, hL, hM, hR, Or.inr ⟨hmv.2.symm, hsh, hmv.1.symm⟩⟩
    · rename_i hsh
      simp only [Option.some.injEq, Prod.mk.injEq] at hmv
      exact ⟨L, M, R, hL, hM, hR, Or.inl ⟨hmv.2.symm, by simpa using hsh, hmv.1.symm⟩⟩

theorem move_left_inv (s s' : Scene) (b : Bool)
    (hmv : Scene.move_left s = some (s', b)) :
    ∃ L M R,
      2 ≤ s.player.2 ∧
      getCell s.map s.player.1 s.player.2 = some L ∧
      getCell s.map s.player.1 (s.player.2 - 1) = some M ∧
      getCell s.map s.player.1 (s.player.2 - 2) = some R ∧
      ((b = false ∧ (Cell.shift (L, M, R)).2 = false ∧ s' = s) ∨
       (b = true ∧ (Cell.shift (L, M, R)).2 = true ∧
        s' = { player := (s.player.1, s.player.2 - 1),
               map := setCell (setCell (setCell s.map s.player.1 s.player.2
                          (Cell.shift (L, M, R)).1.1)
                        s.player.1 (s.player.2 - 1) (Cell.shift (L, M, R)).1.2.1)
                        s.player.1 (s.player.2 - 2) (Cell.shift (L, M, R)).1.2.2,
               history := ((s.player.1, s.player.2), (s.player.1, s.player.2 - 1),
                           (s.player.1, s.player.2 - 2), (L, M, R)) :: s.history })) := by
  simp only [Scene.move_left] at hmv
  split at hmv
  · exact Option.noConfusion hmv
  · rename_i hguard
    split at hmv
    case h_2 => exact Option.noConfusion hmv
    case h_1 =>
      rename_i L M R hL hM hR
      split at hmv
      · rename_i hsh
        simp only [Option.some.injEq, Prod.mk.injEq] at hmv
        exact ⟨L, M, R, by omega, hL, hM, hR, Or.inr ⟨hmv.2.symm, hsh, hmv.1.symm⟩⟩
      · rename_i hsh
        simp only [Option.some.injEq, Prod.mk.injEq] at hmv
        exact ⟨L, M, R, by omega, hL, hM, hR,
          Or.inl ⟨hmv.2.symm, by simpa using hsh, hmv.1.symm⟩⟩

theorem move_upward_inv (s s' : Scene) (b : Bool)
    (hmv : Scene.move_upward s = some (s', b)) :
    ∃ L M R,
      2 ≤ s.player.1 ∧
      getCell s.map s.player.1 s.player.2 = some L ∧
      getCell s.map (s.player.1 - 1) s.player.2 = some M ∧
      getCell s.map (s.player.1 - 2) s.player.2 = some R ∧
      ((b = false ∧ (Cell.shift (L, M, R)).2 = false ∧ s' = s) ∨
       (b = true ∧ (Cell.shift (L, M, R)).2 = true ∧
        s' = { player := (s.player.1 - 1, s.player.2),
               map := setCell (setCell (setCell s.map s.player.1 s.player.2
                          (Cell.shift (L, M, R)).1.1)
                        (s.player.1 - 1) s.player.2 (Cell.shift (L, M, R)).1.2.1)
                        (s.player.1 - 2) s.player.2 (Cell.shift (L, M, R)).1.2.2,
               history := ((s.player.1, s.player.2), (s.player.1 - 1, s.player.2),
                           (s.player.1 - 2, s.player.2), (L, M, R)) :: s.history })) := by
  simp only [Scene.move_upward] at hmv
  split at hmv
  · exact Option.noConfusion hmv
  · rename_i hguard
    split at hmv
    case h_2 => exact Option.noConfusion hmv
    case h_1 =>
      rename_i L M R hL hM hR
      split at hmv
      · rename_i hsh
        simp only [Option.some.injEq, Prod.mk.injEq] at hmv
        exact ⟨L, M, R, by omega, hL, hM, hR, Or.inr ⟨hmv.2.symm, hsh, hmv.1.symm⟩⟩
      · rename_i hsh
        simp only [Option.some.injEq, Prod.mk.injEq] at hmv
        exact ⟨L, M, R, by omega, hL, hM, hR,
          Or.inl ⟨hmv.2.symm, by simpa using hsh, hmv.1.symm⟩⟩

theorem move_down_inv (s s' : Scene) (b : Bool)
    (hmv : Scene.move_down s = some (s', b)) :
    ∃ L M R,
      getCell s.map s.player.1 s.player.2 = some L ∧
      getCell s.map (s.player.1 + 1) s.player.2 = some M ∧
      getCell s.map (s.player.1 + 2) s.player.2 = some R ∧
      ((b = false ∧ (Cell.shift (L, M, R)).2 = false ∧ s' = s) ∨
       (b = true ∧ (Cell.shift (L, M, R)).2 = true ∧
        s' = { player := (s.player.1 + 1, s.player.2),
               map := setCell (setCell (setCell s.map s.player.1 s.player.2
                          (Cell.shift (L, M, R)).1.1)
                        (s.player.1 + 1) s.player.2 (Cell.shift (L, M, R)).1.2.1)
                        (s.player.1 + 2) s.player.2 (Cell.shift (L, M, R)).1.2.2,
               history := ((s.player.1, s.player.2), (s.player.1 + 1, s.player.2),
                           (s.player.1 + 2, s.player.2), (L, M, R)) :: s.history })) := by
  simp only [Scene.move_down] at hmv
  split at hmv
  case h_2 => exact Option.noConfusion hmv
  case h_1 =>
    rename_i L M R hL hM hR
    split at hmv
    · rename_i hsh
      simp only [Option.some.injEq, Prod.mk.injEq] at hmv
      exact ⟨L, M, R, hL, hM, hR, Or.inr ⟨hmv.2.symm, hsh, hmv.1.symm⟩⟩
    · rename_i hsh
      simp only [Option.some.injEq, Prod.mk.injEq] at hmv
      exact ⟨L, M, R, hL, hM, hR, Or.inl ⟨hmv.2.symm, by simpa using hsh, hmv.1.symm⟩⟩

/-! ### Claims -/

/-- C1: for every Scene state `S` and every direction, if the directional move
(`move_right`/`move_left`/`move_upward`/`move_down`) succeeds (its triple
indexing is in bounds and it returns `true`) producing `S'`, then `undo`
applied to `S'` restores the prior state: the grid is equal cell-for-cell and
the player coordinate equals its pre-move value. -/
theorem move_undo_roundtrip (s s' : Scene) :
    (Scene.move_right s = some (s', true) →
      (Scene.undo s').map = s.map ∧ (Scene.undo s').player = s.player) ∧
    (Scene.move_left s = some (s', true) →
      (Scene.undo s').map = s.map ∧ (Scene.undo s').player = s.player) ∧
    (Scene.move_upward s = some (s', true) →
      (Scene.undo s').map = s.map ∧ (Scene.undo s').player = s.player) ∧
    (Scene.move_down s = some (s', true) →
      (Scene.undo s').map = s.map ∧ (Scene.undo s').player = s.player) := by
  refine ⟨fun hmv => ?_, fun hmv => ?_, fun hmv => ?_, fun hmv => ?_⟩
  · obtain ⟨L, M, R, hL, hM, hR, hcase⟩ := move_right_inv s s' true hmv
    rcases hcase with ⟨hb, -, -⟩ | ⟨-, -, rfl⟩
    · exact absurd hb (by simp)
    · constructor
      · simp only [Scene.undo]
        exact setCell_restore _ _ _ _ _ _ _ _ _ _ _ _ _ hL hM hR
      · rfl
  · obtain ⟨L, M, R, -, hL, hM, hR, hcase⟩ := move_left_inv s s' true hmv
    rcases hcase with ⟨hb, -, -⟩ | ⟨-, -, rfl⟩
    · exact absurd hb (by simp)
    · constructor
      · simp only [Scene.undo]
        exact setCell_restore _ _ _ _ _ _ _ _ _ _ _ _ _ hL hM hR
      · rfl
  · obtain ⟨L, M, R, -, hL, hM, hR, hcase⟩ := move_upward_inv s s' true hmv
    rcases hcase with ⟨hb, -, -⟩ | ⟨-, -, rfl⟩
    · exact absurd hb (by simp)
    · constructor
      · simp only [Scene.undo]
        exact setCell_restore _ _ _ _ _ _ _ _ _ _ _ _ _ hL hM hR
      · rfl
  · obtain ⟨L, M, R, hL, hM, hR, hcase⟩ := move_down_inv s s' true hmv
    rcases hcase with ⟨hb, -, -⟩ | ⟨-, -, rfl⟩
    · exact absurd hb (by simp)
    · constructor
      · simp only [Scene.undo]
        exact setCell_restore _ _ _ _ _ _ _ _ _ _ _ _ _ hL hM hR
      · rfl

/-- C1 witness: the round-trip theorem applied to the concrete one-row scene
`i__`, where `move_right` succeeds. -/
theorem move_undo_roundtrip_witness :
    (Scene.undo (Scene.mk (0, 1) [[Cell.Ground, Cell.Player, Cell.Ground]]
        [((0, 0), (0, 1), (0, 2), (Cell.Player, Cell.Ground, Cell.Ground))])).map =
      (Scene.mk (0, 0) [[Cell.Player, Cell.Ground, Cell.Ground]] []).map ∧
    (Scene.undo (Scene.mk (0, 1) [[Cell.Ground, Cell.Player, Cell.Ground]]
        [((0, 0), (0, 1), (0, 2), (Cell.Player, Cell.Ground, Cell.Ground))])).player =
      (Scene.mk (0, 0) [[Cell.Player, Cell.Ground, Cell.Ground]] []).player :=
  (move_undo_roundtrip (Scene.mk (0, 0) [[Cell.Player, Cell.Ground, Cell.Ground]] [])
    (Scene.mk (0, 1) [[Cell.Ground, Cell.Player, Cell.Ground]]
      [((0, 0), (0, 1), (0, 2), (Cell.Player, Cell.Ground, Cell.Ground))])).1 (by decide)

/-- C2: whenever `shift` reports success on a triple (L, M, R), the sum of the
cell volumes of the returned triple equals `vol L + vol M + vol R`. -/
theorem shift_conserves_volume : ∀ L M R : Cell,
    (Cell.shift (L, M, R)).2 = true →
    (Cell.shift (L, M, R)).1.1.vol + (Cell.shift (L, M, R)).1.2.1.vol +
      (Cell.shift (L, M, R)).1.2.2.vol = L.vol + M.vol + R.vol := by
  decide

/-- C2 witness: conservation at the concrete successful triple
(Player, Ground, Ground). -/
theorem shift_conserves_volume_witness :
    (Cell.shift (Cell.Player, Cell.Ground, Cell.Ground)).2 = true ∧
    (Cell.shift (Cell.Player, Cell.Ground, Cell.Ground)).1.1.vol +
      (Cell.shift (Cell.Player, Cell.Ground, Cell.Ground)).1.2.1.vol +
      (Cell.shift (Cell.Player, Cell.Ground, Cell.Ground)).1.2.2.vol =
      Cell.Player.vol + Cell.Ground.vol + Cell.Ground.vol :=
  ⟨by decide, shift_conserves_volume Cell.Player Cell.Ground Cell.Ground (by decide)⟩

/-- C4: `shift` on (Player, Wall, R) fails for every R; `shift` on
(Player, Case, Wall) fails; `shift` on (Player, Case, C) fails for every
case-like C; `shift` on (Player, Ground, Ground) succeeds and returns
exactly (Ground, Player, Ground). -/
theorem shift_rejection_cases :
    (∀ R : Cell, (Cell.shift (Cell.Player, Cell.Wall, R)).2 = false) ∧
    (Cell.shift (Cell.Player, Cell.Case, Cell.Wall)).2 = false ∧
    (∀ C : Cell, (C = Cell.Case ∨ C = Cell.CaseOnTarget) →
      (Cell.shift (Cell.Player, Cell.Case, C)).2 = false) ∧
    Cell.shift (Cell.Player, Cell.Ground, Cell.Ground) =
      ((Cell.Ground, Cell.Player, Cell.Ground), true) := by
  decide

/-- C4 witness: the case-like clause applied at the concrete cell
CaseOnTarget. -/
theorem shift_rejection_cases_witness :
    (Cell.CaseOnTarget = Cell.Case ∨ Cell.CaseOnTarget = Cell.CaseOnTarget) ∧
    (Cell.shift (Cell.Player, Cell.Case, Cell.CaseOnTarget)).2 = false :=
  ⟨Or.inr rfl, shift_rejection_cases.2.2.1 Cell.CaseOnTarget (Or.inr rfl)⟩

/-- C6: for every non-wall cell, recomposing its `seprate` decomposition via
`overlay` yields the cell back, and distinct non-wall cells have distinct
decompositions. -/
theorem seprate_overlay_bijection :
    (∀ c : Cell, c ≠ Cell.Wall → Cell.overlay c.seprate.1 c.seprate.2 = c) ∧
    (∀ c d : Cell, c ≠ Cell.Wall → d ≠ Cell.Wall → c.seprate = d.seprate → c = d) := by
  decide

/-- C6 witness: the round-trip at the concrete cell CaseOnTarget. -/
theorem seprate_overlay_bijection_witness :
    Cell.CaseOnTarget ≠ Cell.Wall ∧
    Cell.overlay Cell.CaseOnTarget.seprate.1 Cell.CaseOnTarget.seprate.2 =
      Cell.CaseOnTarget :=
  ⟨by decide, seprate_overlay_bijection.1 Cell.CaseOnTarget (by decide)⟩

/-- C10: `get_boxes` returns the empty coordinate list on every Scene. -/
theorem get_boxes_empty (s : Scene) : Scene.get_boxes s = [] := rfl

/-- C5: if the triple at the player is in bounds and `shift` reports failure,
the directional move returns exactly the unchanged Scene paired with `false`
(no grid change, no player change, no history record). -/
theorem rejected_move_unchanged (s : Scene) (L M R : Cell) :
    (getCell s.map s.player.1 s.player.2 = some L →
     getCell s.map s.player.1 (s.player.2 + 1) = some M →
     getCell s.map s.player.1 (s.player.2 + 2) = some R →
     (Cell.shift (L, M, R)).2 = false →
     Scene.move_right s = some (s, false)) ∧
    (2 ≤ s.player.2 →
     getCell s.map s.player.1 s.player.2 = some L →
     getCell s.map s.player.1 (s.player.2 - 1) = some M →
     getCell s.map s.player.1 (s.player.2 - 2) = some R →
     (Cell.shift (L, M, R)).2 = false →
     Scene.move_left s = some (s, false)) ∧
    (2 ≤ s.player.1 →
     getCell s.map s.player.1 s.player.2 = some L →
     getCell s.map (s.player.1 - 1) s.player.2 = some M →
     getCell s.map (s.player.1 - 2) s.player.2 = some R →
     (Cell.shift (L, M, R)).2 = false →
     Scene.move_upward s = some (s, false)) ∧
    (getCell s.map s.player.1 s.player.2 = some L →
     getCell s.map (s.player.1 + 1) s.player.2 = some M →
     getCell s.map (s.player.1 + 2) s.player.2 = some R →
     (Cell.shift (L, M, R)).2 = false →
     Scene.move_down s = some (s, false)) := by
  refine ⟨fun hL hM hR hsh => ?_, fun hg hL hM hR hsh => ?_,
    fun hg hL hM hR hsh => ?_, fun hL hM hR hsh => ?_⟩
  · simp [Scene.move_right, hL, hM, hR, hsh]
  · simp [Scene.move_left, Nat.not_lt.mpr hg, hL, hM, hR, hsh]
  · simp [Scene.move_upward, Nat.not_lt.mpr hg, hL, hM, hR, hsh]
  · simp [Scene.move_down, hL, hM, hR, hsh]

/-- C5 witness: a rejected rightward move against a wall leaves the concrete
Scene unchanged and returns false. -/
theorem rejected_move_unchanged_witness :
    getCell (Scene.mk (0, 0) [[Cell.Player, Cell.Wall, Cell.Ground]] []).map 0 0 =
      some Cell.Player ∧
    (Cell.shift (Cell.Player, Cell.Wall, Cell.Ground)).2 = false ∧
    Scene.move_right (Scene.mk (0, 0) [[Cell.Player, Cell.Wall, Cell.Ground]] []) =
      some (Scene.mk (0, 0) [[Cell.Player, Cell.Wall, Cell.Ground]] [], false) :=
  ⟨by decide, by decide,
    (rejected_move_unchanged (Scene.mk (0, 0) [[Cell.Player, Cell.Wall, Cell.Ground]] [])
      Cell.Player Cell.Wall Cell.Ground).1 (by decide) (by decide) (by decide) (by decide)⟩

/-- C3 (refuting evidence): `load` does not clear the undo history.  On a
Scene carrying one history record, re-loading the layout `"i "` succeeds,
replaces the grid, but leaves the old record on the history stack. -/
theorem load_keeps_history :
    Scene.load (Scene.mk (0, 1) [[Cell.Ground, Cell.Player, Cell.Ground]]
        [((0, 0), (0, 1), (0, 2), (Cell.Player, Cell.Ground, Cell.Ground))])
      [['i', ' ']] =
    some (Scene.mk (0, 0) [[Cell.Player, Cell.Ground]]
        [((0, 0), (0, 1), (0, 2), (Cell.Player, Cell.Ground, Cell.Ground))]) := by
  decide

theorem foldl_add_eq_zero (l : List Nat) (n : Nat) :
    l.foldl (fun sum val => sum + val) n = 0 ↔ n = 0 ∧ ∀ x ∈ l, x = 0 := by
  induction l generalizing n with
  | nil => simp
  | cons a t ih =>
    simp only [List.foldl_cons, ih, List.mem_cons]
    constructor
    · rintro ⟨h1, h2⟩
      refine ⟨by omega, ?_⟩
      rintro x (rfl | hx)
      · omega
      · exact h2 x hx
    · rintro ⟨h1, h2⟩
      have ha := h2 a (Or.inl rfl)
      exact ⟨by omega, fun x hx => h2 x (Or.inr hx)⟩

/-- C8: `is_pass` is true exactly when no grid cell is the `Case` variant;
`CaseOnTarget` cells do not prevent a true result. -/
theorem is_pass_iff (s : Scene) :
    Scene.is_pass s = true ↔ ∀ row ∈ s.map, Cell.Case ∉ row := by
  rw [Scene.is_pass, beq_iff_eq, foldl_add_eq_zero]
  constructor
  · rintro ⟨-, h⟩ row hrow hcase
    have hz := h _ (List.mem_map_of_mem _ hrow)
    rw [List.length_eq_zero, List.filter_eq_nil_iff] at hz
    exact hz Cell.Case hcase (by simp)
  · intro h
    refine ⟨rfl, fun x hx => ?_⟩
    obtain ⟨row, hrow, rfl⟩ := List.mem_map.mp hx
    rw [List.length_eq_zero, List.filter_eq_nil_iff]
    intro a ha hbeq
    rw [beq_iff_eq] at hbeq
    subst hbeq
    exact h row hrow ha

theorem isSome_move_right (s : Scene) :
    (Scene.move_right s).isSome =
      ((getCell s.map s.player.1 s.player.2).isSome &&
       (getCell s.map s.player.1 (s.player.2 + 1)).isSome &&
       (getCell s.map s.player.1 (s.player.2 + 2)).isSome) := by
  cases h0 : getCell s.map s.player.1 s.player.2 <;>
    cases h1 : getCell s.map s.player.1 (s.player.2 + 1) <;>
      cases h2 : getCell s.map s.player.1 (s.player.2 + 2) <;>
        simp [Scene.move_right, h0, h1, h2, apply_ite Option.isSome]

theorem isSome_move_left (s : Scene) :
    (Scene.move_left s).isSome =
      (decide (2 ≤ s.player.2) &&
       (getCell s.map s.player.1 s.player.2).isSome &&
       (getCell s.map s.player.1 (s.player.2 - 1)).isSome &&
       (getCell s.map s.player.1 (s.player.2 - 2)).isSome) := by
  by_cases hg : s.player.2 < 2
  · have : ¬ 2 ≤ s.player.2 := by omega
    simp [Scene.move_left, hg, this]
  · have h2c : 2 ≤ s.player.2 := by omega
    cases h0 : getCell s.map s.player.1 s.player.2 <;>
      cases h1 : getCell s.map s.player.1 (s.player.2 - 1) <;>
        cases h2 : getCell s.map s.player.1 (s.player.2 - 2) <;>
          simp [Scene.move_left, hg, h2c, h0, h1, h2, apply_ite Option.isSome]

theorem isSome_move_upward (s : Scene) :
    (Scene.move_upward s).isSome =
      (decide (2 ≤ s.player.1) &&
       (getCell s.map s.player.1 s.player.2).isSome &&
       (getCell s.map (s.player.1 - 1) s.player.2).isSome &&
       (getCell s.map (s.player.1 - 2) s.player.2).isSome) := by
  by_cases hg : s.player.1 < 2
  · have : ¬ 2 ≤ s.player.1 := by omega
    simp [Scene.move_upward, hg, this]
  · have h2r : 2 ≤ s.player.1 := by omega
    cases h0 : getCell s.map s.player.1 s.player.2 <;>
      cases h1 : getCell s.map (s.player.1 - 1) s.player.2 <;>
        cases h2 : getCell s.map (s.player.1 - 2) s.player.2 <;>
          simp [Scene.move_upward, hg, h2r, h0, h1, h2, apply_ite Option.isSome]

theorem isSome_move_down (s : Scene) :
    (Scene.move_down s).isSome =
      ((getCell s.map s.player.1 s.player.2).isSome &&
       (getCell s.map (s.player.1 + 1) s.player.2).isSome &&
       (getCell s.map (s.player.1 + 2) s.player.2).isSome) := by
  cases h0 : getCell s.map s.player.1 s.player.2 <;>
    cases h1 : getCell s.map (s.player.1 + 1) s.player.2 <;>
      cases h2 : getCell s.map (s.player.1 + 2) s.player.2 <;>
        simp [Scene.move_down, h0, h1, h2, apply_ite Option.isSome]

theorem isSome_getCell_rect (s : Scene) (h w : Nat)
    (hh : s.map.length = h) (hrect : ∀ row ∈ s.map, row.length = w) :
    ∀ i j : Nat, (getCell s.map i j).isSome = true ↔ i < h ∧ j < w := by
  intro i j
  unfold getCell
  by_cases hi : i < s.map.length
  · rw [List.getElem?_eq_getElem hi, Option.some_bind]
    have hlen : (s.map[i]).length = w := hrect _ (List.getElem_mem hi)
    rw [isSome_getElem_iff, hlen]
    omega
  · rw [List.getElem?_eq_none (Nat.le_of_not_lt hi), Option.none_bind]
    simp only [Option.isSome_none, Bool.false_eq_true, false_iff]
    omega

/-- C9: with the player strictly inside a rectangular h×w grid, a directional
move performs only in-bounds grid accesses (returns `some`) exactly when the
player has at least 2 cells of margin in the travel direction; within one
cell of the edge the triple construction reads past the grid or underflows
(modelled as `none`). -/
theorem move_bounds (s : Scene) (r c h w : Nat)
    (hpl : s.player = (r, c))
    (hh : s.map.length = h)
    (hrect : ∀ row ∈ s.map, row.length = w)
    (hr : r < h) (hc : c < w) :
    ((Scene.move_right s).isSome = true ↔ c + 2 < w) ∧
    ((Scene.move_left s).isSome = true ↔ 2 ≤ c) ∧
    ((Scene.move_upward s).isSome = true ↔ 2 ≤ r) ∧
    ((Scene.move_down s).isSome = true ↔ r + 2 < h) := by
  have hget := isSome_getCell_rect s h w hh hrect
  refine ⟨?_, ?_, ?_, ?_⟩
  · rw [isSome_move_right]
    simp only [hpl, Bool.and_eq_true, hget]
    omega
  · rw [isSome_move_left]
    simp only [hpl, Bool.and_eq_true, hget, decide_eq_true_eq]
    omega
  · rw [isSome_move_upward]
    simp only [hpl, Bool.and_eq_true, hget, decide_eq_true_eq]
    omega
  · rw [isSome_move_down]
    simp only [hpl, Bool.and_eq_true, hget]
    omega

/-- C9 witness: the characterization applied to a concrete 3×3 all-ground
grid with the player at the top-left corner. -/
theorem move_bounds_witness :
    ((Scene.move_right (Scene.mk (0, 0)
        [[Cell.Player, Cell.Ground, Cell.Ground],
         [Cell.Ground, Cell.Ground, Cell.Ground],
         [Cell.Ground, Cell.Ground, Cell.Ground]] [])).isSome = true ↔ 0 + 2 < 3) ∧
    ((Scene.move_left (Scene.mk (0, 0)
        [[Cell.Player, Cell.Ground, Cell.Ground],
         [Cell.Ground, Cell.Ground, Cell.Ground],
         [Cell.Ground, Cell.Ground, Cell.Ground]] [])).isSome = true ↔ 2 ≤ 0) ∧
    ((Scene.move_upward (Scene.mk (0, 0)
        [[Cell.Player, Cell.Ground, Cell.Ground],
         [Cell.Ground, Cell.Ground, Cell.Ground],
         [Cell.Ground, Cell.Ground, Cell.Ground]] [])).isSome = true ↔ 2 ≤ 0) ∧
    ((Scene.move_down (Scene.mk (0, 0)
        [[Cell.Player, Cell.Ground, Cell.Ground],
         [Cell.Ground, Cell.Ground, Cell.Ground],
         [Cell.Ground, Cell.Ground, Cell.Ground]] [])).isSome = true ↔ 0 + 2 < 3) :=
  move_bounds (Scene.mk (0, 0)
      [[Cell.Player, Cell.Ground, Cell.Ground],
       [Cell.Ground, Cell.Ground, Cell.Ground],
       [Cell.Ground, Cell.Ground, Cell.Ground]] []) 0 0 3 3
    rfl rfl (by decide) (by decide) (by decide)

/-- A cell bearing the player, alone or on a target. -/
def isPlayerCell : Cell → Bool
  | .Player => true
  | .PlayerOnTarget => true
  | _ => false

/-- The player invariant of a Scene: the cell at the `player` coordinate
bears the player, and every player-bearing grid cell is at that coordinate
(so exactly one cell holds the player). -/
def Scene.playerOk (s : Scene) : Prop :=
  (∃ cell, getCell s.map s.player.1 s.player.2 = some cell ∧
    isPlayerCell cell = true) ∧
  (∀ i j : Nat, ∀ cell, getCell s.map i j = some cell →
    isPlayerCell cell = true → (i, j) = s.player)

theorem shift_player_cells : ∀ L M R : Cell,
    isPlayerCell L = true → isPlayerCell M = false → isPlayerCell R = false →
    (Cell.shift (L, M, R)).2 = true →
    isPlayerCell (Cell.shift (L, M, R)).1.1 = false ∧
    isPlayerCell (Cell.shift (L, M, R)).1.2.1 = true ∧
    isPlayerCell (Cell.shift (L, M, R)).1.2.2 = false := by
  decide

theorem playerOk_write3 (mp : Map) (a0 b0 a1 b1 a2 b2 : Nat) (L M R x y z : Cell)
    (hne : a2 ≠ a1 ∨ b2 ≠ b1)
    (hL : getCell mp a0 b0 = some L) (hM : getCell mp a1 b1 = some M)
    (hR : getCell mp a2 b2 = some R)
    (hOk2 : ∀ i j : Nat, ∀ cell, getCell mp i j = some cell →
      isPlayerCell cell = true → (i, j) = (a0, b0))
    (hx : isPlayerCell x = false) (hy : isPlayerCell y = true)
    (hz : isPlayerCell z = false) :
    (∃ cell, getCell (setCell (setCell (setCell mp a0 b0 x) a1 b1 y) a2 b2 z) a1 b1
        = some cell ∧ isPlayerCell cell = true) ∧
    (∀ i j : Nat, ∀ cell,
      getCell (setCell (setCell (setCell mp a0 b0 x) a1 b1 y) a2 b2 z) i j = some cell →
      isPlayerCell cell = true → (i, j) = (a1, b1)) := by
  constructor
  · refine ⟨y, ?_, hy⟩
    rw [getCell_write3, if_neg, if_pos]
    · exact ⟨rfl, rfl, by rw [hM]; rfl⟩
    · rintro ⟨h1, h2, -⟩
      rcases hne with h | h
      · exact h h1
      · exact h h2
  · intro i j cell hget hpc
    rw [getCell_write3] at hget
    split_ifs at hget with h1 h2 h3
    · injection hget with hzc
      rw [← hzc, hz] at hpc
      exact absurd hpc (by simp)
    · obtain ⟨hi, hj, -⟩ := h2
      rw [← hi, ← hj]
    · injection hget with hxc
      rw [← hxc, hx] at hpc
      exact absurd hpc (by simp)
    · have he := hOk2 i j cell hget hpc
      have hi : i = a0 := congrArg Prod.fst he
      have hj : j = b0 := congrArg Prod.snd he
      exact absurd ⟨hi.symm, hj.symm, by rw [hget]; rfl⟩ h3

/-- C7: if a Scene has exactly one player-bearing cell and the `player`
coordinate points at it, then after any directional move that does not index
out of bounds — whether the move succeeds or is rejected — the resulting
Scene again has exactly one player-bearing cell and the `player` coordinate
matches it. -/
theorem player_unique_invariant (s s' : Scene) (b : Bool) (hOk : Scene.playerOk s) :
    (Scene.move_right s = some (s', b) → Scene.playerOk s') ∧
    (Scene.move_left s = some (s', b) → Scene.playerOk s') ∧
    (Scene.move_upward s = some (s', b) → Scene.playerOk s') ∧
    (Scene.move_down s = some (s', b) → Scene.playerOk s') := by
  obtain ⟨⟨pcell, hpcell, hpc⟩, hOk2⟩ := hOk
  refine ⟨fun hmv => ?_, fun hmv => ?_, fun hmv => ?_, fun hmv => ?_⟩
  · obtain ⟨L, M, R, hL, hM, hR, hcase⟩ := move_right_inv s s' b hmv
    rcases hcase with ⟨-, -, rfl⟩ | ⟨-, hsh, rfl⟩
    · exact ⟨⟨pcell, hpcell, hpc⟩, hOk2⟩
    · have hLp : isPlayerCell L = true := by
        rw [hpcell] at hL
        injection hL with h
        rw [← h]
        exact hpc
      have hMp : isPlayerCell M = false := by
        cases hMpb : isPlayerCell M with
        | false => rfl
        | true =>
          have he := hOk2 s.player.1 (s.player.2 + 1) M hM hMpb
          have h2 : s.player.2 + 1 = s.player.2 := congrArg Prod.snd he
          omega
      have hRp : isPlayerCell R = false := by
        cases hRpb : isPlayerCell R with
        | false => rfl
        | true =>
          have he := hOk2 s.player.1 (s.player.2 + 2) R hR hRpb
          have h2 : s.player.2 + 2 = s.player.2 := congrArg Prod.snd he
          omega
      have hfacts := shift_player_cells L M R hLp hMp hRp hsh
      exact playerOk_write3 s.map s.player.1 s.player.2 s.player.1 (s.player.2 + 1)
        s.player.1 (s.player.2 + 2) L M R _ _ _ (Or.inr (by omega)) hL hM hR hOk2
        hfacts.1 hfacts.2.1 hfacts.2.2
  · obtain ⟨L, M, R, hc2, hL, hM, hR, hcase⟩ := move_left_inv s s' b hmv
    rcases hcase with ⟨-, -, rfl⟩ | ⟨-, hsh, rfl⟩
    · exact ⟨⟨pcell, hpcell, hpc⟩, hOk2⟩
    · have hLp : isPlayerCell L = true := by
        rw [hpcell] at hL
        injection hL with h
        rw [← h]
        exact hpc
      have hMp : isPlayerCell M = false := by
        cases hMpb : isPlayerCell M with
        | false => rfl
        | true =>
          have he := hOk2 s.player.1 (s.player.2 - 1) M hM hMpb
          have h2 : s.player.2 - 1 = s.player.2 := congrArg Prod.snd he
          omega
      have hRp : isPlayerCell R = false := by
        cases hRpb : isPlayerCell R with
        | false => rfl
        | true =>
          have he := hOk2 s.player.1 (s.player.2 - 2) R hR hRpb
          have h2 : s.player.2 - 2 = s.player.2 := congrArg Prod.snd he
          omega
      have hfacts := shift_player_cells L M R hLp hMp hRp hsh
      exact playerOk_write3 s.map s.player.1 s.player.2 s.player.1 (s.player.2 - 1)
        s.player.1 (s.player.2 - 2) L M R _ _ _ (Or.inr (by omega)) hL hM hR hOk2
        hfacts.1 hfacts.2.1 hfacts.2.2
  · obtain ⟨L, M, R, hr2, hL, hM, hR, hcase⟩ := move_upward_inv s s' b hmv
    rcases hcase with ⟨-, -, rfl⟩ | ⟨-, hsh, rfl⟩
    · exact ⟨⟨pcell, hpcell, hpc⟩, hOk2⟩
    · have hLp : isPlayerCell L = true := by
        rw [hpcell] at hL
        injection hL with h
        rw [← h]
        exact hpc
      have hMp : isPlayerCell M = false := by
        cases hMpb : isPlayerCell M with
        | false => rfl
        | true =>
          have he := hOk2 (s.player.1 - 1) s.player.2 M hM hMpb
          have h2 : s.player.1 - 1 = s.player.1 := congrArg Prod.fst he
          omega
      have hRp : isPlayerCell R = false := by
        cases hRpb : isPlayerCell R with
        | false => rfl
        | true =>
          have he := hOk2 (s.player.1 - 2) s.player.2 R hR hRpb
          have h2 : s.player.1 - 2 = s.player.1 := congrArg Prod.fst he
          omega
      have hfacts := shift_player_cells L M R hLp hMp hRp hsh
      exact playerOk_write3 s.map s.player.1 s.player.2 (s.player.1 - 1) s.player.2
        (s.player.1 - 2) s.player.2 L M R _ _ _ (Or.inl (by omega)) hL hM hR hOk2
        hfacts.1 hfacts.2.1 hfacts.2.2
  · obtain ⟨L, M, R, hL, hM, hR, hcase⟩ := move_down_inv s s' b hmv
    rcases hcase with ⟨-, -, rfl⟩ | ⟨-, hsh, rfl⟩
    · exact ⟨⟨pcell, hpcell, hpc⟩, hOk2⟩
    · have hLp : isPlayerCell L = true := by
        rw [hpcell] at hL
        injection hL with h
        rw [← h]
        exact hpc
      have hMp : isPlayerCell M = false := by
        cases hMpb : isPlayerCell M with
        | false => rfl
        | true =>
          have he := hOk2 (s.player.1 + 1) s.player.2 M hM hMpb
          have h2 : s.player.1 + 1 = s.player.1 := congrArg Prod.fst he
          omega
      have hRp : isPlayerCell R = false := by
        cases hRpb : isPlayerCell R with
        | false => rfl
        | true =>
          have he := hOk2 (s.player.1 + 2) s.player.2 R hR hRpb
          have h2 : s.player.1 + 2 = s.player.1 := congrArg Prod.fst he
          omega
      have hfacts := shift_player_cells L M R hLp hMp hRp hsh
      exact playerOk_write3 s.map s.player.1 s.player.2 (s.player.1 + 1) s.player.2
        (s.player.1 + 2) s.player.2 L M R _ _ _ (Or.inl (by omega)) hL hM hR hOk2
        hfacts.1 hfacts.2.1 hfacts.2.2

theorem playerOk_demo :
    Scene.playerOk (Scene.mk (0, 0) [[Cell.Player, Cell.Ground, Cell.Ground]] []) := by
  constructor
  · exact ⟨Cell.Player, rfl, rfl⟩
  · intro i j cell hget hpc
    match i, j with
    | 0, 0 => rfl
    | 0, 1 =>
      have h : some Cell.Ground = some cell := hget
      injection h with h
      rw [← h] at hpc
      exact absurd hpc (by decide)
    | 0, 2 =>
      have h : some Cell.Ground = some cell := hget
      injection h with h
      rw [← h] at hpc
      exact absurd hpc (by decide)
    | 0, j + 3 =>
      have h : (none : Option Cell) = some cell := hget
      exact Option.noConfusion h
    | i + 1, j =>
      have h : (none : Option Cell) = some cell := hget
      exact Option.noConfusion h

/-- C7 witness: the invariant carried across the concrete successful
rightward move on the one-row scene `i__`. -/
theorem player_unique_invariant_witness :
    Scene.playerOk (Scene.mk (0, 1) [[Cell.Ground, Cell.Player, Cell.Ground]]
      [((0, 0), (0, 1), (0, 2), (Cell.Player, Cell.Ground, Cell.Ground))]) :=
  (player_unique_invariant (Scene.mk (0, 0) [[Cell.Player, Cell.Ground, Cell.Ground]] [])
    (Scene.mk (0, 1) [[Cell.Ground, Cell.Player, Cell.Ground]]
      [((0, 0), (0, 1), (0, 2), (Cell.Player, Cell.Ground, Cell.Ground))])
    true playerOk_demo).1 (by decide)

example : Cell.shift (.Player, .Wall, .Ground) = ((.Player, .Wall, .Ground), false) := by decide

example : Cell.shift (.Player, .Ground, .Ground) = ((.Ground, .Player, .Ground), true) := by decide

example : Cell.shift (.Player, .Case, .Wall) = ((.Player, .Case, .Wall), false) := by decide

end Sokoban
